import Mathlib

/-!
Verification development for `charge_light_association.py`.

The script's `main` loads four integer arrays — the coarse ("unix", whole
seconds) and fine ("PPS tick") timestamps of the light-event stream and of
the charge external-trigger stream — computes overlapping index ranges,
performs blocked window matching and writes a deduplicated table of
`(charge_index, light_index)` pairs.  This file is a shallow embedding of
that computation over `List Int`, with Python/NumPy integer arrays as
lists, `np.argmax` over a boolean mask as leftmost-`true`-or-zero search,
Python slices `l[i:j]` via their length `min j (length l) - i` and absolute
indexing `l[i:j][k] = l[i+k]`, and `np.unique(..., axis=0)` as
sorted-without-duplicates insertion.
-/

namespace ChargeLight

/-- `np.argmax` applied to a boolean mask: index of the first `true`
entry, or `0` when every entry is `false` (NumPy returns the first index
of the maximal value, and the maximum of an all-`false` mask is `false`
at index `0`). -/
def argmaxBool (l : List Bool) : Nat :=
  if l.any (fun b => b) then l.findIdx (fun b => b) else 0

/-- `np.min` of a nonempty integer array (the empty case never occurs in
the script; `0` is a junk default). -/
def listMin : List Int → Int
  | [] => 0
  | a :: r => r.foldl min a

/-- `np.max` of a nonempty integer array (junk default `0` on `[]`). -/
def listMax : List Int → Int
  | [] => 0
  | a :: r => r.foldl max a

/-- Length of the Python slice `l[i:j]` (with `0 ≤ i, j`) of a list of
length `n`: `min j n - i`, truncated subtraction. -/
def sliceLen (n i j : Nat) : Nat := min j n - i

/-- Python `range(start, stop, step)` for a positive `step`:
`⌈(stop - start)/step⌉` values `start + k*step`. -/
def pyRange (start stop step : Nat) : List Nat :=
  (List.range ((stop - start + step - 1) / step)).map fun k => start + k * step

/-- `_block_size = 256` (line 44 of the source). -/
def _block_size : Nat := 256

/-- `_default_ts_window = 1000` (line 42 of the source). -/
def _default_ts_window : Int := 1000

/-- Line 106: `light_start_idx = np.argmax((light_unix_ts < charge_end_time)
& (light_unix_ts > charge_start_time - 1))`, with
`charge_end_time = np.max(charge_unix_ts)` and
`charge_start_time = np.min(charge_unix_ts)`. -/
def light_start_idx (light_unix_ts charge_unix_ts : List Int) : Nat :=
  argmaxBool (light_unix_ts.map fun t =>
    decide (t < listMax charge_unix_ts ∧ t > listMin charge_unix_ts - 1))

/-- Line 108: `charge_start_idx = np.argmax((charge_unix_ts < light_end_time)
& (charge_unix_ts > light_start_time - 1))`. -/
def charge_start_idx (charge_unix_ts light_unix_ts : List Int) : Nat :=
  argmaxBool (charge_unix_ts.map fun t =>
    decide (t < listMax light_unix_ts ∧ t > listMin light_unix_ts - 1))

/-- Line 110: `light_end_idx = light_n_events - 1 - np.argmax(
((light_unix_ts > charge_start_time) & (light_unix_ts < charge_end_time + 1))[::-1])`. -/
def light_end_idx (light_unix_ts charge_unix_ts : List Int) : Nat :=
  light_unix_ts.length - 1 - argmaxBool
    ((light_unix_ts.map fun t =>
      decide (t > listMin charge_unix_ts ∧ t < listMax charge_unix_ts + 1)).reverse)

/-- Line 112: `charge_end_idx = charge_n_events - 1 - np.argmax(
((charge_unix_ts > light_start_time) & (charge_unix_ts < light_end_time + 1))[::-1])`. -/
def charge_end_idx (charge_unix_ts light_unix_ts : List Int) : Nat :=
  charge_unix_ts.length - 1 - argmaxBool
    ((charge_unix_ts.map fun t =>
      decide (t > listMin light_unix_ts ∧ t < listMax light_unix_ts + 1)).reverse)

/-- Line 123: per-block `i_charge = np.argmax((charge_unix_ts <
light_unix_ts[j_light]) & (charge_unix_ts > light_unix_ts[i_light] - 1))`. -/
def block_i_charge (charge_unix_ts light_unix_ts : List Int) (i_light j_light : Nat) : Nat :=
  argmaxBool (charge_unix_ts.map fun t =>
    decide (t < light_unix_ts.getD j_light 0 ∧ t > light_unix_ts.getD i_light 0 - 1))

/-- Line 125: per-block `j_charge = charge_n_events - 1 - np.argmax(
((charge_unix_ts > light_unix_ts[i_light]) & (charge_unix_ts <
light_unix_ts[j_light] + 1))[::-1])`. -/
def block_j_charge (charge_unix_ts light_unix_ts : List Int) (i_light j_light : Nat) : Nat :=
  charge_unix_ts.length - 1 - argmaxBool
    ((charge_unix_ts.map fun t =>
      decide (t > light_unix_ts.getD i_light 0 ∧ t < light_unix_ts.getD j_light 0 + 1)).reverse)

/-- Lines 127-133: the dense boolean matrix
`assoc_mat[r][c] = (|light_unix_ts[i_light:j_light][c] -
charge_unix_ts[i_charge:j_charge][r]| ≤ 1) ∧ (|light_ts[i_light:j_light][c]
- charge_ts[i_charge:j_charge][r]| < ts_window)` together with
`np.argwhere(assoc_mat) + [[i_charge, i_light]]`: the `(charge, light)`
index pairs of the `true` entries, offset to absolute indices, listed in
`argwhere`'s row-major order.  A Python slice element `l[i:j][k]` is
`l[i+k]`, which is how the slices are rendered here. -/
def blockPairs (light_unix_ts charge_unix_ts light_ts charge_ts : List Int)
    (ts_window : Int) (i_light j_light i_charge j_charge : Nat) : List (Nat × Nat) :=
  (List.range (sliceLen charge_unix_ts.length i_charge j_charge)).flatMap fun r =>
    (List.range (sliceLen light_unix_ts.length i_light j_light)).filterMap fun c =>
      if |charge_unix_ts.getD (i_charge + r) 0 - light_unix_ts.getD (i_light + c) 0| ≤ 1 ∧
         |charge_ts.getD (i_charge + r) 0 - light_ts.getD (i_light + c) 0| < ts_window
      then some (i_charge + r, i_light + c) else none

/-- Lines 117-133: the matching loop.  `for light_curr_idx in
range(light_start_idx, light_end_idx, block)`, `j_light = min(i_light +
block, light_end_idx)`, then the per-block candidate charge window and the
block's matrix pairs, concatenated over all blocks (the `if np.any`
append guard only skips empty contributions). -/
def assoc_blocks (light_unix_ts charge_unix_ts light_ts charge_ts : List Int)
    (ts_window : Int) (block : Nat) : List (Nat × Nat) :=
  (pyRange (light_start_idx light_unix_ts charge_unix_ts)
      (light_end_idx light_unix_ts charge_unix_ts) block).flatMap fun i_light =>
    blockPairs light_unix_ts charge_unix_ts light_ts charge_ts ts_window
      i_light
      (min (i_light + block) (light_end_idx light_unix_ts charge_unix_ts))
      (block_i_charge charge_unix_ts light_unix_ts i_light
        (min (i_light + block) (light_end_idx light_unix_ts charge_unix_ts)))
      (block_j_charge charge_unix_ts light_unix_ts i_light
        (min (i_light + block) (light_end_idx light_unix_ts charge_unix_ts)))

/-- Strict lexicographic order on `(charge_index, light_index)` rows:
first column first, then second column — the row order of
`np.unique(..., axis=0)` output. -/
def pairLt (p q : Nat × Nat) : Prop :=
  p.1 < q.1 ∨ (p.1 = q.1 ∧ p.2 < q.2)

instance (p q : Nat × Nat) : Decidable (pairLt p q) := by
  unfold pairLt; exact inferInstance

/-- Ordered duplicate-free insertion into a lexicographically sorted list
of rows. -/
def insertNoDup (p : Nat × Nat) : List (Nat × Nat) → List (Nat × Nat)
  | [] => [p]
  | q :: rest =>
    if p = q then q :: rest
    else if pairLt p q then p :: q :: rest
    else q :: insertNoDup p rest

/-- Line 138: `np.unique(assoc.astype(int), axis=0)` — the distinct rows
in ascending lexicographic order. -/
def uniqueRows (l : List (Nat × Nat)) : List (Nat × Nat) :=
  l.foldr insertNoDup []

/-- Lines 117-138: the final association table of `main` — all block
pairs, deduplicated and lexicographically sorted. -/
def event_assoc (light_unix_ts charge_unix_ts light_ts charge_ts : List Int)
    (ts_window : Int) (block : Nat) : List (Nat × Nat) :=
  uniqueRows (assoc_blocks light_unix_ts charge_unix_ts light_ts charge_ts ts_window block)

/-- The externally visible effects of `main`, in program order: writing
the dataset links into the fresh output file (lines 62-75), reading the
light and charge timestamp datasets (lines 79-89), and creating the
`event_assoc` output dataset (line 141). -/
inductive Effect where
  | writeDatasetLinks
  | readLightEvents
  | readChargeEvents
  | writeAssocDataset
deriving DecidableEq

/-- Result of a run of `main`: the error message when it raises, the
effects it performed, the association table and the reported match
count. -/
structure RunResult where
  errorMsg : Option String
  effects : List Effect
  table : List (Nat × Nat)
  reported : Nat

/-- Lines 58-144 of `main` as straight-line control flow: the
`os.path.exists(output_filename)` guard raises `RuntimeError` before any
file is opened, any dataset read or any computation performed (lines
59-60); otherwise links are written, the four timestamp arrays are read,
the association table is computed, the `event_assoc` dataset is created
only when at least one match exists (`if len(assoc):`, line 136), and
`len(assoc)` is reported (line 144). -/
def main_model (output_exists : Bool)
    (light_unix_ts charge_unix_ts light_ts charge_ts : List Int)
    (ts_window : Int) : RunResult :=
  if output_exists then
    ⟨some "output_filename exists! Refusing to overwrite.", [], [], 0⟩
  else
    ⟨none,
     [Effect.writeDatasetLinks, Effect.readLightEvents, Effect.readChargeEvents] ++
       (if (event_assoc light_unix_ts charge_unix_ts light_ts charge_ts
              ts_window _block_size).isEmpty then []
        else [Effect.writeAssocDataset]),
     event_assoc light_unix_ts charge_unix_ts light_ts charge_ts ts_window _block_size,
     (event_assoc light_unix_ts charge_unix_ts light_ts charge_ts
        ts_window _block_size).length⟩

/-! ### Membership characterisations -/

theorem mem_blockPairs {lu cu lts cts : List Int} {W : Int} {iL jL iC jC : Nat}
    {p : Nat × Nat} :
    p ∈ blockPairs lu cu lts cts W iL jL iC jC ↔
      ∃ r c, r < sliceLen cu.length iC jC ∧ c < sliceLen lu.length iL jL ∧
        p = (iC + r, iL + c) ∧
        |cu.getD (iC + r) 0 - lu.getD (iL + c) 0| ≤ 1 ∧
        |cts.getD (iC + r) 0 - lts.getD (iL + c) 0| < W := by
  unfold blockPairs
  simp only [List.mem_flatMap, List.mem_filterMap, List.mem_range]
  constructor
  · rintro ⟨r, hr, c, hc, hif⟩
    by_cases hcond : |cu.getD (iC + r) 0 - lu.getD (iL + c) 0| ≤ 1 ∧
        |cts.getD (iC + r) 0 - lts.getD (iL + c) 0| < W
    · rw [if_pos hcond] at hif
      exact ⟨r, c, hr, hc, (Option.some.injEq _ _ ▸ hif.symm) ▸ rfl, hcond.1, hcond.2⟩
    · rw [if_neg hcond] at hif
      exact absurd hif (Option.noConfusion)
  · rintro ⟨r, c, hr, hc, rfl, h1, h2⟩
    exact ⟨r, hr, c, hc, by rw [if_pos ⟨h1, h2⟩]⟩

theorem mem_assoc_blocks {lu cu lts cts : List Int} {W : Int} {B : Nat} {p : Nat × Nat} :
    p ∈ assoc_blocks lu cu lts cts W B ↔
      ∃ iL ∈ pyRange (light_start_idx lu cu) (light_end_idx lu cu) B,
        p ∈ blockPairs lu cu lts cts W iL (min (iL + B) (light_end_idx lu cu))
          (block_i_charge cu lu iL (min (iL + B) (light_end_idx lu cu)))
          (block_j_charge cu lu iL (min (iL + B) (light_end_idx lu cu))) := by
  unfold assoc_blocks
  exact List.mem_flatMap

theorem mem_insertNoDup {p q : Nat × Nat} {l : List (Nat × Nat)} :
    q ∈ insertNoDup p l ↔ q = p ∨ q ∈ l := by
  induction l with
  | nil => simp [insertNoDup]
  | cons a rest ih =>
    unfold insertNoDup
    split_ifs with h1 h2
    · subst h1
      simp only [List.mem_cons]
      tauto
    · simp only [List.mem_cons]
    · simp only [List.mem_cons, ih]
      tauto

theorem mem_uniqueRows {p : Nat × Nat} {l : List (Nat × Nat)} :
    p ∈ uniqueRows l ↔ p ∈ l := by
  induction l with
  | nil => simp [uniqueRows]
  | cons a rest ih =>
    show p ∈ insertNoDup a (uniqueRows rest) ↔ _
    rw [mem_insertNoDup, ih, List.mem_cons]

theorem mem_event_assoc {lu cu lts cts : List Int} {W : Int} {B : Nat} {p : Nat × Nat} :
    p ∈ event_assoc lu cu lts cts W B ↔ p ∈ assoc_blocks lu cu lts cts W B :=
  mem_uniqueRows

/-- Soundness core: everything the position of a collected pair forces —
index bounds, strictness below `light_end_idx`, and the two timestamp
predicates. -/
theorem sound_core {lu cu lts cts : List Int} {W : Int} {B : Nat} {i j : Nat}
    (h : (i, j) ∈ event_assoc lu cu lts cts W B) :
    i < cu.length ∧ j < lu.length ∧ j < light_end_idx lu cu ∧
      |cu.getD i 0 - lu.getD j 0| ≤ 1 ∧ |cts.getD i 0 - lts.getD j 0| < W := by
  rw [mem_event_assoc, mem_assoc_blocks] at h
  obtain ⟨iL, hiL, hp⟩ := h
  rw [mem_blockPairs] at hp
  obtain ⟨r, c, hr, hc, heq, h1, h2⟩ := hp
  obtain ⟨hi, hj⟩ : i = block_i_charge cu lu iL (min (iL + B) (light_end_idx lu cu)) + r ∧
      j = iL + c := by
    exact ⟨congrArg Prod.fst heq, congrArg Prod.snd heq⟩
  subst hi; subst hj
  unfold sliceLen at hr hc
  refine ⟨by omega, by omega, by omega, h1, h2⟩

/-! ### Order and dedup structure of `uniqueRows` -/

theorem pairLt_trans {p q r : Nat × Nat} (h1 : pairLt p q) (h2 : pairLt q r) :
    pairLt p r := by
  obtain ⟨a, b⟩ := p; obtain ⟨c, d⟩ := q; obtain ⟨e, f⟩ := r
  unfold pairLt at *
  simp only at h1 h2 ⊢
  omega

theorem pairLt_of_not_of_ne {p q : Nat × Nat} (h1 : ¬p = q) (h2 : ¬pairLt p q) :
    pairLt q p := by
  obtain ⟨a, b⟩ := p; obtain ⟨c, d⟩ := q
  unfold pairLt at *
  simp only [Prod.mk.injEq] at h1
  simp only at h2 ⊢
  omega

theorem pairLt_ne {p q : Nat × Nat} (h : pairLt p q) : p ≠ q := by
  obtain ⟨a, b⟩ := p; obtain ⟨c, d⟩ := q
  unfold pairLt at h
  simp only [ne_eq, Prod.mk.injEq]
  simp only at h
  omega

theorem pairwise_insertNoDup {p : Nat × Nat} {l : List (Nat × Nat)}
    (h : l.Pairwise pairLt) : (insertNoDup p l).Pairwise pairLt := by
  induction l with
  | nil => simp [insertNoDup]
  | cons a rest ih =>
    rw [List.pairwise_cons] at h
    unfold insertNoDup
    split_ifs with h1 h2
    · exact List.pairwise_cons.mpr h
    · rw [List.pairwise_cons]
      refine ⟨?_, List.pairwise_cons.mpr h⟩
      intro x hx
      rcases List.mem_cons.mp hx with rfl | hx
      · exact h2
      · exact pairLt_trans h2 (h.1 x hx)
    · rw [List.pairwise_cons]
      refine ⟨?_, ih h.2⟩
      intro x hx
      rcases mem_insertNoDup.mp hx with rfl | hx
      · exact pairLt_of_not_of_ne h1 h2
      · exact h.1 x hx

theorem pairwise_uniqueRows (l : List (Nat × Nat)) :
    (uniqueRows l).Pairwise pairLt := by
  induction l with
  | nil => simp [uniqueRows]
  | cons a rest ih => exact pairwise_insertNoDup ih

/-! ### Bounds for `listMin` and `listMax` -/

theorem le_foldl_max (r : List Int) (a : Int) : a ≤ r.foldl max a := by
  induction r generalizing a with
  | nil => exact le_refl a
  | cons b r ih => exact le_trans (le_max_left a b) (ih (max a b))

theorem mem_le_foldl_max {x : Int} {r : List Int} (a : Int) (hx : x ∈ r) :
    x ≤ r.foldl max a := by
  induction r generalizing a with
  | nil => cases hx
  | cons b r ih =>
    rcases List.mem_cons.mp hx with rfl | hx
    · exact le_trans (le_max_right a x) (le_foldl_max r (max a x))
    · exact ih (max a b) hx

theorem foldl_min_le (r : List Int) (a : Int) : r.foldl min a ≤ a := by
  induction r generalizing a with
  | nil => exact le_refl a
  | cons b r ih => exact le_trans (ih (min a b)) (min_le_left a b)

theorem foldl_min_le_mem {x : Int} {r : List Int} (a : Int) (hx : x ∈ r) :
    r.foldl min a ≤ x := by
  induction r generalizing a with
  | nil => cases hx
  | cons b r ih =>
    rcases List.mem_cons.mp hx with rfl | hx
    · exact le_trans (foldl_min_le r (min a x)) (min_le_right a x)
    · exact ih (min a b) hx

theorem mem_le_listMax {x : Int} {l : List Int} (hx : x ∈ l) : x ≤ listMax l := by
  cases l with
  | nil => cases hx
  | cons a r =>
    unfold listMax
    rcases List.mem_cons.mp hx with rfl | hx
    · exact le_foldl_max r x
    · exact mem_le_foldl_max a hx

theorem listMin_le_mem {x : Int} {l : List Int} (hx : x ∈ l) : listMin l ≤ x := by
  cases l with
  | nil => cases hx
  | cons a r =>
    unfold listMin
    rcases List.mem_cons.mp hx with rfl | hx
    · exact foldl_min_le r x
    · exact foldl_min_le_mem a hx

theorem getD_mem_of_lt {l : List Int} {i : Nat} (h : i < l.length) :
    l.getD i 0 ∈ l := by
  rw [List.getD_eq_getElem l 0 h]
  exact List.getElem_mem h

/-! ### Degenerate behaviour of the scans and of `pyRange` -/

theorem argmaxBool_of_all_false {l : List Bool} (h : ∀ b ∈ l, b = false) :
    argmaxBool l = 0 := by
  unfold argmaxBool
  rw [if_neg]
  intro hany
  obtain ⟨b, hb, htrue⟩ := List.any_eq_true.mp hany
  rw [h b hb] at htrue
  cases htrue

theorem pyRange_of_big {start stop step : Nat} (hstep : 0 < step)
    (h : stop - start ≤ step) :
    pyRange start stop step = if start < stop then [start] else [] := by
  unfold pyRange
  by_cases hlt : start < stop
  · rw [if_pos hlt]
    have hcount : (stop - start + step - 1) / step = 1 := by
      refine Nat.div_eq_of_lt_le (by omega) (by omega)
    have hone : List.range 1 = [0] := rfl
    rw [hcount, hone, List.map_singleton, Nat.zero_mul, Nat.add_zero]
  · rw [if_neg hlt]
    have hcount : (stop - start + step - 1) / step = 0 :=
      Nat.div_eq_of_lt (by omega)
    rw [hcount]
    simp

theorem assoc_blocks_of_big {lu cu lts cts : List Int} {W : Int} {B : Nat}
    (hB : 0 < B)
    (h : light_end_idx lu cu - light_start_idx lu cu ≤ B) :
    assoc_blocks lu cu lts cts W B =
      if light_start_idx lu cu < light_end_idx lu cu then
        blockPairs lu cu lts cts W (light_start_idx lu cu) (light_end_idx lu cu)
          (block_i_charge cu lu (light_start_idx lu cu) (light_end_idx lu cu))
          (block_j_charge cu lu (light_start_idx lu cu) (light_end_idx lu cu))
      else [] := by
  unfold assoc_blocks
  rw [pyRange_of_big hB h]
  by_cases hlt : light_start_idx lu cu < light_end_idx lu cu
  · rw [if_pos hlt, if_pos hlt]
    simp only [List.flatMap_cons, List.flatMap_nil, List.append_nil]
    have hmin : min (light_start_idx lu cu + B) (light_end_idx lu cu) =
        light_end_idx lu cu := by omega
    rw [hmin]
  · rw [if_neg hlt, if_neg hlt]
    simp

/-! ### Claims -/

/-- Claim C1: soundness of the association table — for every input (two
coarse and two fine integer timestamp arrays and an integer `ts_window`),
every pair `(i, j)` in the returned table satisfies
`|charge_unix_ts[i] - light_unix_ts[j]| ≤ 1` and
`|charge_ts[i] - light_ts[j]| < ts_window`. -/
theorem c1_assoc_table_sound (lu cu lts cts : List Int) (W : Int) (i j : Nat)
    (h : (i, j) ∈ event_assoc lu cu lts cts W _block_size) :
    |cu.getD i 0 - lu.getD j 0| ≤ 1 ∧ |cts.getD i 0 - lts.getD j 0| < W :=
  ⟨(sound_core h).2.2.2.1, (sound_core h).2.2.2.2⟩

/-- Witness for C1 at a concrete input with a nonempty table. -/
theorem c1_assoc_table_sound_witness :
    ((0, 0) ∈ event_assoc [10, 11] [10, 11] [0, 0] [0, 0] 1000 _block_size) ∧
      (|([10, 11] : List Int).getD 0 0 - ([10, 11] : List Int).getD 0 0| ≤ 1 ∧
        |([0, 0] : List Int).getD 0 0 - ([0, 0] : List Int).getD 0 0| < 1000) :=
  ⟨by decide, c1_assoc_table_sound [10, 11] [10, 11] [0, 0] [0, 0] 1000 0 0 (by decide)⟩

/-- Claim C2, counterexample: with sorted coarse arrays
`light_unix_ts = [5, 10, 11]`, `charge_unix_ts = [8, 9, 10, 11]`, zero
fine timestamps and `ts_window = 1000`, the restricted ranges are
`[0, 3]` (charge) and `[1, 2]` (light); the pair `(1, 1)` lies inside
both ranges (under the inclusive and the half-open reading alike) and
satisfies both predicates (`|9 - 10| ≤ 1`, `|0 - 0| < 1000`), yet it is
absent from the returned table, which is `[(2, 1)]`. -/
theorem c2_counterexample :
    List.Pairwise (· ≤ ·) ([5, 10, 11] : List Int) ∧
    List.Pairwise (· ≤ ·) ([8, 9, 10, 11] : List Int) ∧
    charge_start_idx [8, 9, 10, 11] [5, 10, 11] = 0 ∧
    charge_end_idx [8, 9, 10, 11] [5, 10, 11] = 3 ∧
    light_start_idx [5, 10, 11] [8, 9, 10, 11] = 1 ∧
    light_end_idx [5, 10, 11] [8, 9, 10, 11] = 2 ∧
    |([8, 9, 10, 11] : List Int).getD 1 0 - ([5, 10, 11] : List Int).getD 1 0| ≤ 1 ∧
    |([0, 0, 0, 0] : List Int).getD 1 0 - ([0, 0, 0] : List Int).getD 1 0| < 1000 ∧
    (1, 1) ∉ event_assoc [5, 10, 11] [8, 9, 10, 11] [0, 0, 0] [0, 0, 0, 0] 1000 _block_size := by
  decide

/-- Claim C2 (amended): completeness holds per block, not over the global
restricted ranges — for sorted-ascending coarse arrays, every pair
`(i, j)` whose light index `j` lies in the light slice `[iL, j_light)` of
a block of the iteration and whose charge index `i` lies in that block's
candidate charge slice `[i_charge, min j_charge n)`, and which satisfies
both predicates, appears in the returned association table. -/
theorem c2_block_window_complete (lu cu lts cts : List Int) (W : Int) (i j iL : Nat)
    (hsl : List.Pairwise (· ≤ ·) lu) (hsc : List.Pairwise (· ≤ ·) cu)
    (hiL : iL ∈ pyRange (light_start_idx lu cu) (light_end_idx lu cu) _block_size)
    (hj1 : iL ≤ j)
    (hj2 : j < min (min (iL + _block_size) (light_end_idx lu cu)) lu.length)
    (hi1 : block_i_charge cu lu iL (min (iL + _block_size) (light_end_idx lu cu)) ≤ i)
    (hi2 : i < min (block_j_charge cu lu iL (min (iL + _block_size) (light_end_idx lu cu)))
      cu.length)
    (hcoarse : |cu.getD i 0 - lu.getD j 0| ≤ 1)
    (hfine : |cts.getD i 0 - lts.getD j 0| < W) :
    (i, j) ∈ event_assoc lu cu lts cts W _block_size := by
  rw [mem_event_assoc, mem_assoc_blocks]
  refine ⟨iL, hiL, mem_blockPairs.mpr
    ⟨i - block_i_charge cu lu iL (min (iL + _block_size) (light_end_idx lu cu)),
     j - iL, ?_, ?_, ?_, ?_, ?_⟩⟩
  · unfold sliceLen
    omega
  · unfold sliceLen
    omega
  · rw [Nat.add_sub_cancel' hi1, Nat.add_sub_cancel' hj1]
  · rw [Nat.add_sub_cancel' hi1, Nat.add_sub_cancel' hj1]
    exact hcoarse
  · rw [Nat.add_sub_cancel' hi1, Nat.add_sub_cancel' hj1]
    exact hfine

/-- Witness for the amended C2 at a concrete input. -/
theorem c2_block_window_complete_witness :
    (0 ∈ pyRange (light_start_idx [10, 11] [10, 11]) (light_end_idx [10, 11] [10, 11])
      _block_size) ∧
    ((0, 0) ∈ event_assoc [10, 11] [10, 11] [0, 0] [0, 0] 1000 _block_size) :=
  ⟨by decide, c2_block_window_complete [10, 11] [10, 11] [0, 0] [0, 0] 1000 0 0 0
    (by decide) (by decide) (by decide) (by decide) (by decide) (by decide) (by decide)
    (by decide) (by decide)⟩

/-- Claim C3, counterexample: with `light_unix_ts = [10, 11, 12]`,
`charge_unix_ts = [9, 10, 11, 12, 13]`, zero fine timestamps and
`ts_window = 1000`, block size `1` yields the table `[(1, 0), (2, 1)]`
while block size `2` yields `[(1, 0), (1, 1), (2, 0), (2, 1)]`: the block
size does change which pairs are output. -/
theorem c3_counterexample :
    0 < 1 ∧ 0 < 2 ∧
    event_assoc [10, 11, 12] [9, 10, 11, 12, 13] [0, 0, 0] [0, 0, 0, 0, 0] 1000 1 ≠
      event_assoc [10, 11, 12] [9, 10, 11, 12, 13] [0, 0, 0] [0, 0, 0, 0, 0] 1000 2 := by
  decide

/-- Claim C3 (amended): the final deduplicated match set is identical for
two positive block sizes whenever both cover the whole restricted light
range (a single block); in general the block size does affect the
output. -/
theorem c3_block_size_invariant_when_covering (lu cu lts cts : List Int) (W : Int)
    (B1 B2 : Nat) (hB1 : 0 < B1) (hB2 : 0 < B2)
    (h1 : light_end_idx lu cu - light_start_idx lu cu ≤ B1)
    (h2 : light_end_idx lu cu - light_start_idx lu cu ≤ B2) :
    event_assoc lu cu lts cts W B1 = event_assoc lu cu lts cts W B2 := by
  unfold event_assoc
  rw [assoc_blocks_of_big hB1 h1, assoc_blocks_of_big hB2 h2]

/-- Witness for the amended C3 at a concrete input. -/
theorem c3_block_size_invariant_when_covering_witness :
    light_end_idx [10, 11, 12] [9, 10, 11, 12, 13] -
      light_start_idx [10, 11, 12] [9, 10, 11, 12, 13] ≤ 2 ∧
    event_assoc [10, 11, 12] [9, 10, 11, 12, 13] [0, 0, 0] [0, 0, 0, 0, 0] 1000 2 =
      event_assoc [10, 11, 12] [9, 10, 11, 12, 13] [0, 0, 0] [0, 0, 0, 0, 0] 1000 3 :=
  ⟨by decide, c3_block_size_invariant_when_covering [10, 11, 12] [9, 10, 11, 12, 13]
    [0, 0, 0] [0, 0, 0, 0, 0] 1000 2 3 (by decide) (by decide) (by decide) (by decide)⟩

/-- Claim C4: tolerance monotonicity — for `W1 ≤ W2`, every pair of the
table computed with `ts_window = W1` is in the table computed with
`ts_window = W2`. -/
theorem c4_window_monotone (lu cu lts cts : List Int) (W1 W2 : Int) (i j : Nat)
    (hW : W1 ≤ W2)
    (h : (i, j) ∈ event_assoc lu cu lts cts W1 _block_size) :
    (i, j) ∈ event_assoc lu cu lts cts W2 _block_size := by
  rw [mem_event_assoc, mem_assoc_blocks] at h ⊢
  obtain ⟨iL, hiL, hp⟩ := h
  rw [mem_blockPairs] at hp
  obtain ⟨r, c, hr, hc, heq, h1, h2⟩ := hp
  exact ⟨iL, hiL, mem_blockPairs.mpr ⟨r, c, hr, hc, heq, h1, lt_of_lt_of_le h2 hW⟩⟩

/-- Witness for C4 at a concrete input. -/
theorem c4_window_monotone_witness :
    (1000 : Int) ≤ 2000 ∧
    ((0, 0) ∈ event_assoc [10, 11] [10, 11] [0, 0] [0, 0] 2000 _block_size) :=
  ⟨by decide, c4_window_monotone [10, 11] [10, 11] [0, 0] [0, 0] 1000 2000 0 0
    (by decide) (by decide)⟩

/-- Claim C5, counterexample: the light span `[100, 100]` and the charge
span `[101, 101]` are disjoint, yet with zero fine timestamps and
`ts_window = 1000` the run matches the pair `(0, 0)` (coarse difference
exactly `1`), reports one match and writes the association dataset. -/
theorem c5_counterexample :
    listMax ([100, 100] : List Int) < listMin ([101, 101] : List Int) ∧
    (0, 0) ∈ event_assoc [100, 100] [101, 101] [0, 0] [0, 0] 1000 _block_size ∧
    (main_model false [100, 100] [101, 101] [0, 0] [0, 0] 1000).table ≠ [] ∧
    (main_model false [100, 100] [101, 101] [0, 0] [0, 0] 1000).reported = 1 ∧
    Effect.writeAssocDataset ∈
      (main_model false [100, 100] [101, 101] [0, 0] [0, 0] 1000).effects := by
  decide

/-- Claim C5 (amended): when the two coarse spans are separated by more
than one coarse unit, the run completes without raising, the association
table is empty, a count of zero matches is reported, and the association
dataset is not written.  (Spans that are disjoint but adjacent within one
unit can still produce matches, as the coarse predicate tolerates a
difference of `1`.) -/
theorem c5_gap_gt_one_empty (lu cu lts cts : List Int) (W : Int)
    (hlu : 0 < lu.length) (hcu : 0 < cu.length)
    (hgap : listMax lu + 1 < listMin cu ∨ listMax cu + 1 < listMin lu) :
    (main_model false lu cu lts cts W).errorMsg = none ∧
    (main_model false lu cu lts cts W).table = [] ∧
    (main_model false lu cu lts cts W).reported = 0 ∧
    Effect.writeAssocDataset ∉ (main_model false lu cu lts cts W).effects := by
  have htab : event_assoc lu cu lts cts W _block_size = [] := by
    rw [List.eq_nil_iff_forall_not_mem]
    rintro ⟨i, j⟩ hmem
    obtain ⟨hi, hj, hlt, habs, hf⟩ := sound_core hmem
    have h1 : listMin cu ≤ cu.getD i 0 := listMin_le_mem (getD_mem_of_lt hi)
    have h2 : cu.getD i 0 ≤ listMax cu := mem_le_listMax (getD_mem_of_lt hi)
    have h3 : listMin lu ≤ lu.getD j 0 := listMin_le_mem (getD_mem_of_lt hj)
    have h4 : lu.getD j 0 ≤ listMax lu := mem_le_listMax (getD_mem_of_lt hj)
    rw [abs_le] at habs
    omega
  refine ⟨rfl, htab, ?_, ?_⟩
  · show (event_assoc lu cu lts cts W _block_size).length = 0
    rw [htab]
    rfl
  · show Effect.writeAssocDataset ∉
      [Effect.writeDatasetLinks, Effect.readLightEvents, Effect.readChargeEvents] ++
        (if (event_assoc lu cu lts cts W _block_size).isEmpty then []
         else [Effect.writeAssocDataset])
    rw [htab]
    decide

/-- Witness for the amended C5 at a concrete input. -/
theorem c5_gap_gt_one_empty_witness :
    (listMax ([1, 2] : List Int) + 1 < listMin ([100, 101] : List Int) ∨
      listMax ([100, 101] : List Int) + 1 < listMin ([1, 2] : List Int)) ∧
    ((main_model false [1, 2] [100, 101] [0, 0] [0, 0] 1000).errorMsg = none ∧
     (main_model false [1, 2] [100, 101] [0, 0] [0, 0] 1000).table = [] ∧
     (main_model false [1, 2] [100, 101] [0, 0] [0, 0] 1000).reported = 0 ∧
     Effect.writeAssocDataset ∉
       (main_model false [1, 2] [100, 101] [0, 0] [0, 0] 1000).effects) :=
  ⟨by decide, c5_gap_gt_one_empty [1, 2] [100, 101] [0, 0] [0, 0] 1000
    (by decide) (by decide) (by decide)⟩

/-- Claim C6: the returned table contains no two equal rows and is
lexicographically sorted, by charge index first, then light index
(`pairLt` is that strict lexicographic order). -/
theorem c6_output_sorted_nodup (lu cu lts cts : List Int) (W : Int)
    (hne : event_assoc lu cu lts cts W _block_size ≠ []) :
    (event_assoc lu cu lts cts W _block_size).Nodup ∧
      (event_assoc lu cu lts cts W _block_size).Pairwise pairLt := by
  have hp : (event_assoc lu cu lts cts W _block_size).Pairwise pairLt :=
    pairwise_uniqueRows (assoc_blocks lu cu lts cts W _block_size)
  exact ⟨hp.imp (fun h => pairLt_ne h), hp⟩

/-- Witness for C6 at a concrete input. -/
theorem c6_output_sorted_nodup_witness :
    event_assoc [10, 11] [10, 11] [0, 0] [0, 0] 1000 _block_size ≠ [] ∧
    ((event_assoc [10, 11] [10, 11] [0, 0] [0, 0] 1000 _block_size).Nodup ∧
      (event_assoc [10, 11] [10, 11] [0, 0] [0, 0] 1000 _block_size).Pairwise pairLt) :=
  ⟨by decide, c6_output_sorted_nodup [10, 11] [10, 11] [0, 0] [0, 0] 1000 (by decide)⟩

/-- Claim C7: when the output file already exists, `main` raises before
any dataset is read or any computation performed — the run reports an
error and performs none of its effects, so the existing file is left
unchanged. -/
theorem c7_output_refusal (lu cu lts cts : List Int) (W : Int) :
    (main_model true lu cu lts cts W).errorMsg.isSome = true ∧
      (main_model true lu cu lts cts W).effects = [] :=
  ⟨rfl, rfl⟩

/-- Claim C8, counterexample: with `light_unix_ts = [100, 101]` and
`charge_unix_ts = [0, 1]` no light index satisfies either overlap
predicate, and the leftmost-match scan for the start does degenerate to
`0`; but the reversed scan for the end degenerates to the last index, so
the computed restricted range is `[0, 1]`, not `[0, 0]`. -/
theorem c8_counterexample :
    (∀ t ∈ ([100, 101] : List Int),
      ¬(t < listMax ([0, 1] : List Int) ∧ t > listMin ([0, 1] : List Int) - 1)) ∧
    (∀ t ∈ ([100, 101] : List Int),
      ¬(t > listMin ([0, 1] : List Int) ∧ t < listMax ([0, 1] : List Int) + 1)) ∧
    light_start_idx [100, 101] [0, 1] = 0 ∧
    light_end_idx [100, 101] [0, 1] = 1 := by
  decide

/-- Claim C8 (amended): when no index of the light stream satisfies
either overlap predicate against the charge span, the start scan
degenerates to index `0` and the end scan degenerates to the last index,
so the computed restricted range is `[0, length - 1]` (the whole array);
it collapses to `[0, 0]` only for a single-element stream. -/
theorem c8_no_overlap_full_range (lu cu : List Int) (hlu : 0 < lu.length)
    (h1 : ∀ t ∈ lu, ¬(t < listMax cu ∧ t > listMin cu - 1))
    (h2 : ∀ t ∈ lu, ¬(t > listMin cu ∧ t < listMax cu + 1)) :
    light_start_idx lu cu = 0 ∧ light_end_idx lu cu = lu.length - 1 := by
  constructor
  · unfold light_start_idx
    apply argmaxBool_of_all_false
    intro b hb
    rw [List.mem_map] at hb
    obtain ⟨t, ht, rfl⟩ := hb
    exact decide_eq_false (h1 t ht)
  · unfold light_end_idx
    have hz : argmaxBool
        ((lu.map fun t => decide (t > listMin cu ∧ t < listMax cu + 1)).reverse) = 0 := by
      apply argmaxBool_of_all_false
      intro b hb
      rw [List.mem_reverse, List.mem_map] at hb
      obtain ⟨t, ht, rfl⟩ := hb
      exact decide_eq_false (h2 t ht)
    rw [hz]
    omega

/-- Witness for the amended C8 at a concrete input. -/
theorem c8_no_overlap_full_range_witness :
    0 < ([100, 101] : List Int).length ∧
    (light_start_idx [100, 101] [0, 1] = 0 ∧
      light_end_idx [100, 101] [0, 1] = ([100, 101] : List Int).length - 1) :=
  ⟨by decide, c8_no_overlap_full_range [100, 101] [0, 1] (by decide) (by decide) (by decide)⟩

/-- Claim C9: the last in-range light event is never matched — no pair of
the returned table has light index equal to `light_end_idx`, since the
block iteration treats it as an exclusive bound. -/
theorem c9_last_light_never_matched (lu cu lts cts : List Int) (W : Int) (i j : Nat)
    (h : (i, j) ∈ event_assoc lu cu lts cts W _block_size) :
    j ≠ light_end_idx lu cu :=
  Nat.ne_of_lt (sound_core h).2.2.1

/-- Witness for C9 at a concrete input. -/
theorem c9_last_light_never_matched_witness :
    ((0, 0) ∈ event_assoc [10, 11] [10, 11] [0, 0] [0, 0] 1000 _block_size) ∧
      0 ≠ light_end_idx [10, 11] [10, 11] :=
  ⟨by decide, c9_last_light_never_matched [10, 11] [10, 11] [0, 0] [0, 0] 1000 0 0 (by decide)⟩

/-- Claim C10: index-bounds safety — for nonempty streams, every pair
`(i, j)` of the returned table satisfies `i < charge_n_events` and
`j < light_n_events`, so indexing either stream with a table entry is in
bounds. -/
theorem c10_index_bounds (lu cu lts cts : List Int) (W : Int) (i j : Nat)
    (hlu : 0 < lu.length) (hcu : 0 < cu.length)
    (h : (i, j) ∈ event_assoc lu cu lts cts W _block_size) :
    i < cu.length ∧ j < lu.length :=
  ⟨(sound_core h).1, (sound_core h).2.1⟩

/-- Witness for C10 at a concrete input. -/
theorem c10_index_bounds_witness :
    ((0, 0) ∈ event_assoc [10, 11] [10, 11] [0, 0] [0, 0] 1000 _block_size) ∧
      (0 < ([10, 11] : List Int).length ∧ 0 < ([10, 11] : List Int).length) :=
  ⟨by decide, c10_index_bounds [10, 11] [10, 11] [0, 0] [0, 0] 1000 0 0
    (by decide) (by decide) (by decide)⟩

end ChargeLight
